import Mathlib

/-!
Verification of the scheduled capture-and-report engine (`src/email_images.py`)
against its natural-language specification.

The embedding is shallow:
* instants are modelled as minutes since an epoch (`Nat`); a calendar day is
  `now / 1440` and the minute-of-day is `now % 1440`; Python's
  `date.weekday()` (Monday = 0) is `(day + 3) % 7` because epoch day 0
  (1970-01-01) was a Thursday;
* file names are modelled as `List Char`, and the string operations the code
  performs on them (`startswith`, `endswith`, `split('_')`, lexicographic
  sorting) are embedded as the corresponding list functions;
* `await`/retry control flow is embedded as explicit sequencing over lists of
  attempt outcomes; exceptions become explicit control-flow branches
  (`Except`, early returns, caught/uncaught flags).
-/

/-! ## Clock/Schedule Resolver (`_get_capture_times_for_day`,
`_get_next_capture_time`, `_get_next_send_time`) -/

/-- Minutes in a day. -/
def minutesPerDay : Nat := 1440

/-- Python `datetime.combine(day, time)`: the instant at minute-of-day `tod`
of calendar day `day`, in minutes since the epoch. -/
def combineDT (day tod : Nat) : Nat := day * minutesPerDay + tod

/-- Python `date.weekday()` for epoch day number `day` (Monday = 0). -/
def weekdayOf (day : Nat) : Nat := (day + 3) % 7

/-- Embeds `_get_capture_times_for_day`: weekday (Mon-Fri) uses the weekday
list, Saturday/Sunday the weekend list.  Times of day are minutes. -/
def get_capture_times_for_day (wkday wkend : List Nat) (day : Nat) : List Nat :=
  if weekdayOf day < 5 then wkday else wkend

/-- Embeds `_get_next_capture_time`: combine today's and tomorrow's capture
times with their dates, keep the instants strictly after `now`, return the
minimum; if none remain, fall back to the first capture time of the day after
tomorrow. -/
def get_next_capture_time (wkday wkend : List Nat) (now : Nat) : Nat :=
  let today := now / minutesPerDay
  let tomorrow := today + 1
  let dtsToday := (get_capture_times_for_day wkday wkend today).map (combineDT today)
  let dtsTomorrow := (get_capture_times_for_day wkday wkend tomorrow).map (combineDT tomorrow)
  let future := (dtsToday ++ dtsTomorrow).filter (fun dt => decide (now < dt))
  match future with
  | [] =>
      let dayAfterTomorrow := tomorrow + 1
      combineDT dayAfterTomorrow ((get_capture_times_for_day wkday wkend dayAfterTomorrow).headD 0)
  | x :: xs => xs.foldl min x

/-- Embeds `_get_next_send_time`: today's date combined with the send time of
day; only when `now` is strictly past that instant is one day added. -/
def get_next_send_time (sendTod : Nat) (now : Nat) : Nat :=
  let sendDT := combineDT (now / minutesPerDay) sendTod
  if sendDT < now then sendDT + minutesPerDay else sendDT

/-! ## Crop clamping (`capture_image`, lines 305-312) -/

/-- Configured crop rectangle, as read from the configuration.  The values
come from `int(float(...))` and may be negative or oversized. -/
structure CropConfig where
  top : Int
  left : Int
  width : Int
  height : Int
deriving DecidableEq, Repr

/-- Crop box in PIL order (left, top, right, bottom). -/
structure Box where
  left : Int
  top : Int
  right : Int
  bottom : Int
deriving DecidableEq, Repr

/-- Embeds the crop-box computation of `capture_image` for an image of size
`w`×`h`.  Python `x or y` on integers selects `y` exactly when `x == 0`. -/
def computeCropBox (w h : Int) (c : CropConfig) : Box :=
  let cw0 := if c.width ≠ 0 then c.width else w - c.left
  let ch0 := if c.height ≠ 0 then c.height else h - c.top
  let top := max 0 (min c.top (h - 1))
  let left := max 0 (min c.left (w - 1))
  let cw := min cw0 (w - left)
  let ch := min ch0 (h - top)
  ⟨left, top, left + cw, top + ch⟩

/-- PIL `Image.crop` raises `ValueError` exactly when the box has
`right < left` or `bottom < top`. -/
def cropRaisesOn (b : Box) : Bool :=
  decide (b.right < b.left) || decide (b.bottom < b.top)

/-- A crop box lies within the bounds of a `w`×`h` image. -/
def boxWithinBounds (w h : Int) (b : Box) : Bool :=
  decide (0 ≤ b.left) && decide (b.left ≤ b.right) && decide (b.right ≤ w) &&
  decide (0 ≤ b.top) && decide (b.top ≤ b.bottom) && decide (b.bottom ≤ h)

/-! ## Capture Pipeline (`capture_image`) -/

/-- Role of a written image file. -/
inductive Role where
  | primary
  | secondary
  | stacked
deriving DecidableEq, Repr

/-- Embeds the `for attempt in range(n)` retry loop around a camera fetch:
`true` at some position among the first `n` attempt outcomes means one attempt
succeeded (the loop `break`s there); otherwise all attempts failed. -/
def tryAttempts : Nat → List Bool → Bool
  | 0, _ => false
  | _ + 1, [] => false
  | n + 1, a :: rest => if a then true else tryAttempts n rest

/-- Persistent bookkeeping touched by the capture pipeline. -/
structure CaptureState where
  lastCaptureTime : Option Nat
deriving DecidableEq, Repr

/-- Embeds `capture_image`.  `pAtt`/`sAtt` are the outcomes of the successive
primary/secondary fetch-decode-crop-save attempts, `secondaryConfigured`
mirrors `self.secondary_camera`, `stackEnabled` mirrors `self.stack_images`
and `stackOk` tells whether the stacking block would raise.  Returns the new
state and the roles of the files written.  If all three primary attempts fail
the function returns early: no file is recorded and the state is untouched;
the secondary failing only skips the secondary file; a stacking exception is
caught and only skips the stacked file; `last_capture_time` is set at the end,
which is reached whenever the primary succeeded. -/
def capture_image (pAtt : List Bool) (secondaryConfigured : Bool) (sAtt : List Bool)
    (stackEnabled stackOk : Bool) (now : Nat) (st : CaptureState) :
    CaptureState × List Role :=
  if tryAttempts 3 pAtt then
    let secondarySucceeded := secondaryConfigured && tryAttempts 3 sAtt
    let files := [Role.primary]
      ++ (if secondarySucceeded then [Role.secondary] else [])
      ++ (if stackEnabled && secondarySucceeded && stackOk then [Role.stacked] else [])
    ({ st with lastCaptureTime := some now }, files)
  else
    (st, [])

/-! ## Durable State Store (`_load_state`, `_save_state`) -/

/-- Contents of the state file as found on disk. -/
inductive StateFile where
  | missing
  | unparseable
  | parsed (lastSentDate lastSentTime lastCaptureTime : Option (List Char))
deriving DecidableEq

/-- In-memory bookkeeping fields populated by `_load_state` (all initialised
to `None` by `__init__`). -/
structure LoadedState where
  lastSentDate : Option (List Char)
  lastSentTime : Option (List Char)
  lastCaptureTime : Option (List Char)
deriving DecidableEq

/-- Embeds `_load_state`: a missing file leaves the fresh `None` defaults in
place; an unparseable file makes `json.load` raise, and there is no handler,
so the exception propagates (modelled as `Except.error`); a parseable file
fills the three fields. -/
def load_state : StateFile → Except (List Char) LoadedState
  | .missing => .ok ⟨none, none, none⟩
  | .unparseable => .error "json decode error".toList
  | .parsed d t c => .ok ⟨d, t, c⟩

/-- A load outcome is fatal when the exception escapes `_load_state`. -/
def loadIsFatal : Except (List Char) LoadedState → Bool
  | .error _ => true
  | .ok _ => false

/-! ## Send path of the scheduler loop (`send_report` and
`run_scheduled_loop` lines 274-282) -/

/-- Values taken by `self.report`. -/
inductive ReportStatus where
  | notSent
  | sent
  | noImages
  | errorStatus
deriving DecidableEq, Repr

/-- Bookkeeping read and written by the send path.  `savedCount` counts the
`_save_state` calls, and dates are day numbers (standing for the `%Y%m%d`
strings, which are in bijection with dates). -/
structure SendState where
  lastSentDate : Option Nat
  lastSentTime : Option Nat
  report : ReportStatus
  savedCount : Nat
deriving DecidableEq, Repr

/-- Embeds `send_report`.  `dirExists` and `imagesPresent` describe the day's
archive, `transportOk` whether `_send_daily_report_sync` succeeds.  Returns
the new state and the number of transport invocations.  A missing directory
or empty selection sets `report = "no_images"` and returns without calling
the transport; a transport exception is caught, `report` records the error
and nothing else is touched; on success `report = "sent"`, both sent fields
are set and the state is saved. -/
def send_report (dirExists imagesPresent transportOk : Bool) (now : Nat)
    (st : SendState) : SendState × Nat :=
  let todayStr := now / minutesPerDay
  if !dirExists then ({ st with report := .noImages }, 0)
  else if !imagesPresent then ({ st with report := .noImages }, 0)
  else if transportOk then
    ({ st with report := .sent, lastSentDate := some todayStr,
               lastSentTime := some now, savedCount := st.savedCount + 1 }, 1)
  else
    ({ st with report := .errorStatus }, 1)

/-- Embeds the send check of one wakeup of `run_scheduled_loop` (lines
274-282).  The `today_str` the iteration uses is computed at line 236 from
the pre-sleep clock reading and is not refreshed after the sleep, so the
guard at line 278 and the assignment at line 280 use `preSleepDay`, the date
of the iteration's start, which differs from the wake date whenever the sleep
crossed midnight.  The send step runs exactly when the wake clock's hour and
minute equal the send time's hour and minute and `last_sent_date` differs
from that pre-sleep date string; afterwards the loop unconditionally sets
`last_sent_date` to the pre-sleep date string, records the send time and
saves the state. -/
def loopSendCheck (sendTod : Nat) (dirExists imagesPresent transportOk : Bool)
    (preSleepDay : Nat) (now : Nat) (st : SendState) : SendState × Nat :=
  let todayStr := preSleepDay
  let nowTod := now % minutesPerDay
  let due := (nowTod / 60 == sendTod / 60) && (nowTod % 60 == sendTod % 60) &&
    !(st.lastSentDate == some todayStr)
  if due then
    let r := send_report dirExists imagesPresent transportOk now st
    ({ r.1 with lastSentDate := some todayStr, lastSentTime := some now,
                savedCount := r.1.savedCount + 1 }, r.2)
  else
    (st, 0)

/-! ## Scheduler-loop structure (`run_scheduled_loop` lines 226-288) -/

/-- One planned iteration of the `while True` body: either it completes,
transforming the bookkeeping and writing some files, or it raises. -/
inductive IterStep where
  | ok (eff : SendState → SendState × List Role)
  | raises

/-- Observable outcome of running the scheduler loop. -/
structure LoopOutcome where
  finalState : SendState
  filesWritten : List Role
  iterationsRun : Nat
  backoffSleeps : Nat
  errorCaught : Bool
  lockReleased : Bool
  exitedOnError : Bool

/-- Runs the `while True` body over a trace of planned iterations.  The
`try` block wraps the whole loop, so the first raising iteration escapes the
loop, is caught once by the outer `except`, logged, and the loop is over; no
backoff sleep exists on that path and later iterations never run.  A trace
that ends without raising models external cancellation. -/
def runLoopBody : List IterStep → SendState → SendState × List Role × Nat × Bool
  | [], st => (st, [], 0, false)
  | .ok eff :: rest, st =>
      let r := eff st
      let k := runLoopBody rest r.1
      (k.1, r.2 ++ k.2.1, k.2.2.1 + 1, k.2.2.2)
  | .raises :: _, st => (st, [], 1, true)

/-- Embeds `run_scheduled_loop`: a failed non-blocking lock acquisition logs
and returns before the `try` block, so nothing is executed, no error is
raised and the `finally` that releases the lock is never entered; otherwise
the body runs and the `finally` releases the lock however the loop ends. -/
def run_scheduled_loop (lockAcquired : Bool) (iters : List IterStep)
    (st : SendState) : LoopOutcome :=
  if !lockAcquired then
    { finalState := st, filesWritten := [], iterationsRun := 0,
      backoffSleeps := 0, errorCaught := false, lockReleased := false,
      exitedOnError := false }
  else
    let r := runLoopBody iters st
    { finalState := r.1, filesWritten := r.2.1, iterationsRun := r.2.2.1,
      backoffSleeps := 0, errorCaught := r.2.2.2, lockReleased := true,
      exitedOnError := r.2.2.2 }

/-! ## Manual command surface (`do_command`, `"send_email"` branch) -/

/-- Status returned by the `"send_email"` branch of `do_command`. -/
inductive CmdStatus where
  | invalidDay
  | noDirectory
  | noImages
  | sentOk
  | errorSending
deriving DecidableEq, Repr

/-- Bookkeeping touched by the manual send command; dates are kept as the
`YYYYMMDD` strings the command works with. -/
structure CmdState where
  lastSentDate : Option (List Char)
  lastSentTime : Option (List Char)
  report : ReportStatus
  savedCount : Nat
deriving DecidableEq, Repr

/-- Embeds the `"send_email"` branch of `do_command` for a requested `day`
string.  `dayValid` is whether `strptime(day, "%Y%m%d")` succeeds,
`dirExists`/`imagesPresent` describe that day's archive and `transportOk`
whether the transport call succeeds.  Returns the new state, the status and
the number of transport invocations.  On a successful send the code
unconditionally sets `last_sent_date = day`, records the timestamp and saves
the state, for any requested day; on any failure the state is untouched. -/
def do_command_send_email (dayValid dirExists imagesPresent transportOk : Bool)
    (day : List Char) (st : CmdState) : CmdState × CmdStatus × Nat :=
  if !dayValid then (st, .invalidDay, 0)
  else if !dirExists then (st, .noDirectory, 0)
  else if !imagesPresent then (st, .noImages, 0)
  else if transportOk then
    ({ st with report := .sent, lastSentDate := some day,
               lastSentTime := some day, savedCount := st.savedCount + 1 },
     .sentOk, 1)
  else
    (st, .errorSending, 1)

/-! ## Report Assembler selection and ordering (`_get_report_images` and the
sort in `send_report` line 499) -/

/-- File names are modelled as lists of characters. -/
abbrev FName := List Char

/-- Source constant `PRIMARY_SUFFIX`. -/
def PRIMARY_SUFFIX : FName := "_primary_EST.jpg".toList

/-- Source constant `SECONDARY_SUFFIX`. -/
def SECONDARY_SUFFIX : FName := "_secondary_EST.jpg".toList

/-- Source constant `STACKED_SUFFIX`. -/
def STACKED_SUFFIX : FName := "_stacked_EST.jpg".toList

/-- Embeds `_get_report_images`: keep the directory entries that start with
`image_<today_str>` and end with `_EST.jpg`, then keep the stacked files when
stacking is enabled and the primary files otherwise. -/
def get_report_images (stackImages : Bool) (listing : List FName)
    (todayStr : FName) : List FName :=
  let allImages := listing.filter (fun f =>
    ("image_".toList ++ todayStr).isPrefixOf f && "_EST.jpg".toList.isSuffixOf f)
  if stackImages then allImages.filter (fun f => STACKED_SUFFIX.isSuffixOf f)
  else allImages.filter (fun f => PRIMARY_SUFFIX.isSuffixOf f)

/-- Python `str.split('_')` on a character list. -/
def splitOnUnderscore : List Char → List (List Char)
  | [] => [[]]
  | c :: rest =>
      if c = '_' then [] :: splitOnUnderscore rest
      else
        match splitOnUnderscore rest with
        | [] => [[c]]
        | h :: t => (c :: h) :: t

/-- Embeds the sort key of `send_report` line 499:
`x.split('_')[1] + x.split('_')[2].split('_')[0]`. -/
def sortKey (f : FName) : FName :=
  let parts := splitOnUnderscore f
  (parts.getD 1 []) ++ ((splitOnUnderscore (parts.getD 2 [])).getD 0 [])

/-- Python string comparison: lexicographic on code points, a proper prefix
compares smaller. -/
def lexLe : List Char → List Char → Bool
  | [], _ => true
  | _ :: _, [] => false
  | a :: as, b :: bs =>
      if a < b then true else if b < a then false else lexLe as bs

/-- Comparison used by `sorted(images_to_send, key=...)`. -/
def keyLe (f g : FName) : Prop := lexLe (sortKey f) (sortKey g) = true

instance : DecidableRel keyLe := fun f g => by
  unfold keyLe; exact inferInstance

/-- The timestamp segment embedded in a file name, `split('_')[2]`. -/
def tsSegment (f : FName) : FName := (splitOnUnderscore f).getD 2 []

/-- Embeds the `sorted` call of `send_report` line 499. -/
def sortImages (l : List FName) : List FName := List.insertionSort keyLe l

/-- Canonical on-disk file name
`image_<date>_<timestamp>_<role>_EST.jpg` built by `capture_image`. -/
def canonicalName (d ts role : FName) : FName :=
  "image_".toList ++ d ++ "_".toList ++ ts ++ "_".toList ++ role ++ "_EST.jpg".toList

/-- The three role segments that occur in canonical names. -/
def roleSegments : List FName := ["primary".toList, "secondary".toList, "stacked".toList]

/-- Role segment selected by the active mode. -/
def activeRole (stackImages : Bool) : FName :=
  if stackImages then "stacked".toList else "primary".toList

/-- Embeds the image list `send_report` attaches, in attachment order: the
selection of `_get_report_images` sorted by the key of line 499. -/
def send_report_selection (stackImages : Bool) (listing : List FName)
    (todayStr : FName) : List FName :=
  sortImages (get_report_images stackImages listing todayStr)

/-! ## Helper lemmas about the string operations -/

lemma isPrefixOf_eq_true_iff : ∀ {l₁ l₂ : List Char},
    l₁.isPrefixOf l₂ = true ↔ ∃ t, l₂ = l₁ ++ t := by
  intro l₁
  induction l₁ with
  | nil => intro l₂; simp [List.isPrefixOf]
  | cons a as ih =>
      intro l₂
      cases l₂ with
      | nil => simp [List.isPrefixOf]
      | cons b bs =>
          simp only [List.isPrefixOf, Bool.and_eq_true, beq_iff_eq, ih]
          constructor
          · rintro ⟨rfl, t, rfl⟩
            exact ⟨t, rfl⟩
          · rintro ⟨t, h⟩
            rw [List.cons_append] at h
            obtain ⟨h1, h2⟩ := List.cons.inj h
            exact ⟨h1.symm, t, h2⟩

lemma isSuffixOf_eq_true_iff {l₁ l₂ : List Char} :
    l₁.isSuffixOf l₂ = true ↔ ∃ p, l₂ = p ++ l₁ := by
  unfold List.isSuffixOf
  rw [isPrefixOf_eq_true_iff]
  constructor
  · rintro ⟨t, h⟩
    refine ⟨t.reverse, ?_⟩
    have h2 := congrArg List.reverse h
    simpa using h2
  · rintro ⟨p, rfl⟩
    exact ⟨p.reverse, by simp⟩

lemma isSuffixOf_append_of_length_le {s a t : List Char}
    (h : s.isSuffixOf (a ++ t) = true) (hl : s.length ≤ t.length) :
    s.isSuffixOf t = true := by
  rw [isSuffixOf_eq_true_iff] at h ⊢
  obtain ⟨p, hp⟩ := h
  have hlen : a.length + t.length = p.length + s.length := by
    have h2 := congrArg List.length hp
    simpa using h2
  have hap : a.length ≤ p.length := by omega
  refine ⟨p.drop a.length, ?_⟩
  have h1 : t = (a ++ t).drop a.length := by simp
  rw [h1, hp, List.drop_append_eq_append_drop]
  have h0 : a.length - p.length = 0 := by omega
  rw [h0, List.drop_zero]

lemma splitOnUnderscore_sep (rest : List Char) : ∀ (a : List Char), '_' ∉ a →
    splitOnUnderscore (a ++ '_' :: rest) = a :: splitOnUnderscore rest := by
  intro a
  induction a with
  | nil => intro _; simp [splitOnUnderscore]
  | cons c cs ih =>
      intro h
      have hc : ¬(c = '_') := fun e => h (e ▸ List.mem_cons_self c cs)
      have hcs : '_' ∉ cs := fun m => h (List.mem_cons_of_mem c m)
      simp only [List.cons_append, splitOnUnderscore, if_neg hc, List.append_eq, ih hcs]

lemma splitOnUnderscore_no_sep : ∀ (a : List Char), '_' ∉ a →
    splitOnUnderscore a = [a] := by
  intro a
  induction a with
  | nil => intro _; rfl
  | cons c cs ih =>
      intro h
      have hc : ¬(c = '_') := fun e => h (e ▸ List.mem_cons_self c cs)
      have hcs : '_' ∉ cs := fun m => h (List.mem_cons_of_mem c m)
      simp only [splitOnUnderscore, if_neg hc, ih hcs]

lemma canonicalName_assoc (d ts role : FName) :
    canonicalName d ts role =
      "image".toList ++ '_' :: (d ++ '_' :: (ts ++ '_' :: (role ++ '_' :: "EST.jpg".toList))) := by
  simp only [canonicalName, List.append_assoc]
  rfl

lemma splitOnUnderscore_canonical (d ts role : FName)
    (hd : '_' ∉ d) (hts : '_' ∉ ts) (hr : '_' ∉ role) :
    splitOnUnderscore (canonicalName d ts role) =
      ["image".toList, d, ts, role, "EST.jpg".toList] := by
  rw [canonicalName_assoc,
    splitOnUnderscore_sep _ ("image".toList) (by decide),
    splitOnUnderscore_sep _ d hd,
    splitOnUnderscore_sep _ ts hts,
    splitOnUnderscore_sep _ role hr,
    splitOnUnderscore_no_sep ("EST.jpg".toList) (by decide)]

lemma sortKey_canonical (d ts role : FName)
    (hd : '_' ∉ d) (hts : '_' ∉ ts) (hr : '_' ∉ role) :
    sortKey (canonicalName d ts role) = d ++ ts := by
  simp [sortKey, splitOnUnderscore_canonical d ts role hd hts hr,
    splitOnUnderscore_no_sep ts hts, List.getD]

lemma tsSegment_canonical (d ts role : FName)
    (hd : '_' ∉ d) (hts : '_' ∉ ts) (hr : '_' ∉ role) :
    tsSegment (canonicalName d ts role) = ts := by
  simp [tsSegment, splitOnUnderscore_canonical d ts role hd hts hr, List.getD]

lemma canonical_reshape (d ts role : FName) :
    canonicalName d ts role =
      ("image_".toList ++ d ++ "_".toList ++ ts) ++ ("_".toList ++ role ++ "_EST.jpg".toList) := by
  simp only [canonicalName, List.append_assoc]

lemma canonical_prefix_iff (today d ts role : FName)
    (htoday : today.length = 8) (hd : d.length = 8) :
    (("image_".toList ++ today).isPrefixOf (canonicalName d ts role)) = true ↔ d = today := by
  constructor
  · intro h
    rw [isPrefixOf_eq_true_iff] at h
    obtain ⟨t, ht⟩ := h
    have h2 : "image_".toList ++ (d ++ ("_".toList ++ ts ++ "_".toList ++ role ++ "_EST.jpg".toList)) =
        "image_".toList ++ (today ++ t) := by
      rw [← List.append_assoc]
      simpa [canonicalName, List.append_assoc] using ht
    have h3 := List.append_cancel_left h2
    have h4 : d = today := by
      have h5 := congrArg (List.take 8) h3
      rwa [List.take_left' hd, List.take_left' htoday] at h5
    exact h4
  · rintro rfl
    rw [isPrefixOf_eq_true_iff]
    refine ⟨"_".toList ++ ts ++ "_".toList ++ role ++ "_EST.jpg".toList, ?_⟩
    simp [canonicalName, List.append_assoc]

lemma canonical_est_suffix (d ts role : FName) :
    ("_EST.jpg".toList.isSuffixOf (canonicalName d ts role)) = true := by
  rw [isSuffixOf_eq_true_iff]
  refine ⟨"image_".toList ++ d ++ "_".toList ++ ts ++ "_".toList ++ role, ?_⟩
  simp [canonicalName, List.append_assoc]

lemma canonical_role_suffix_iff (seg : FName)
    (hseg : seg = "primary".toList ∨ seg = "stacked".toList)
    (d ts role : FName) (hrole : role ∈ roleSegments) :
    (("_".toList ++ seg ++ "_EST.jpg".toList).isSuffixOf (canonicalName d ts role)) = true ↔
      role = seg := by
  have reshape := canonical_reshape d ts role
  constructor
  · intro h
    rw [reshape] at h
    simp only [roleSegments, List.mem_cons, List.not_mem_nil, or_false] at hrole
    rcases hseg with rfl | rfl <;> rcases hrole with rfl | rfl | rfl <;>
      first
        | rfl
        | (exfalso
           have h2 := isSuffixOf_append_of_length_le h (by decide)
           exact absurd h2 (by decide))
  · rintro rfl
    rw [isSuffixOf_eq_true_iff]
    exact ⟨"image_".toList ++ d ++ "_".toList ++ ts, reshape⟩

lemma lexLe_total : ∀ a b : List Char, lexLe a b = true ∨ lexLe b a = true := by
  intro a
  induction a with
  | nil => intro b; left; rfl
  | cons x xs ih =>
      intro b
      cases b with
      | nil => right; rfl
      | cons y ys =>
          simp only [lexLe]
          rcases lt_trichotomy x y with h | h | h
          · left; rw [if_pos h]
          · subst h
            simpa [lt_irrefl] using ih ys
          · right; rw [if_pos h]

lemma lexLe_trans : ∀ {a b c : List Char},
    lexLe a b = true → lexLe b c = true → lexLe a c = true := by
  intro a
  induction a with
  | nil => intro b c _ _; rfl
  | cons x xs ih =>
      intro b c hab hbc
      cases b with
      | nil => simp [lexLe] at hab
      | cons y ys =>
          cases c with
          | nil => simp [lexLe] at hbc
          | cons z zs =>
              simp only [lexLe] at hab hbc ⊢
              rcases lt_trichotomy x y with hxy | rfl | hxy
              · rcases lt_trichotomy y z with hyz | rfl | hyz
                · rw [if_pos (lt_trans hxy hyz)]
                · rw [if_pos hxy]
                · rw [if_neg (asymm hyz), if_pos hyz] at hbc
                  exact absurd hbc (by simp)
              · rw [if_neg (lt_irrefl x), if_neg (lt_irrefl x)] at hab
                rcases lt_trichotomy x z with hxz | rfl | hxz
                · rw [if_pos hxz]
                · rw [if_neg (lt_irrefl x), if_neg (lt_irrefl x)] at hbc ⊢
                  exact ih hab hbc
                · rw [if_neg (asymm hxz), if_pos hxz] at hbc
                  exact absurd hbc (by simp)
              · rw [if_neg (asymm hxy), if_pos hxy] at hab
                exact absurd hab (by simp)

lemma lexLe_append_left (p a b : List Char) :
    lexLe (p ++ a) (p ++ b) = lexLe a b := by
  induction p with
  | nil => rfl
  | cons c cs ih => simp [lexLe, lt_irrefl, ih]

instance : IsTotal FName keyLe :=
  ⟨fun f g => lexLe_total (sortKey f) (sortKey g)⟩

instance : IsTrans FName keyLe :=
  ⟨fun _ _ _ hab hbc => lexLe_trans hab hbc⟩

lemma lt_foldl_min (n : Nat) : ∀ (xs : List Nat) (x : Nat), n < x →
    (∀ y ∈ xs, n < y) → n < xs.foldl min x := by
  intro xs
  induction xs with
  | nil => intro x hx _; exact hx
  | cons y ys ih =>
      intro x hx hys
      exact ih (min x y) (lt_min hx (hys y (List.mem_cons_self y ys)))
        (fun z hz => hys z (List.mem_cons_of_mem y hz))

lemma PRIMARY_SUFFIX_expand :
    PRIMARY_SUFFIX = "_".toList ++ "primary".toList ++ "_EST.jpg".toList := rfl

lemma STACKED_SUFFIX_expand :
    STACKED_SUFFIX = "_".toList ++ "stacked".toList ++ "_EST.jpg".toList := rfl

lemma activeRole_cases (stack : Bool) :
    activeRole stack = "primary".toList ∨ activeRole stack = "stacked".toList := by
  cases stack
  · left; rfl
  · right; rfl

lemma activeRole_mem (stack : Bool) : activeRole stack ∈ roleSegments := by
  cases stack <;> simp [activeRole, roleSegments]

lemma activeRole_no_underscore (stack : Bool) : '_' ∉ activeRole stack := by
  cases stack <;> decide

lemma mem_get_report_images_raw (stack : Bool) (L : List FName) (today f : FName) :
    f ∈ get_report_images stack L today ↔
      f ∈ L ∧ (("image_".toList ++ today).isPrefixOf f) = true ∧
        ("_EST.jpg".toList.isSuffixOf f) = true ∧
        (("_".toList ++ activeRole stack ++ "_EST.jpg".toList).isSuffixOf f) = true := by
  cases stack <;>
    simp [get_report_images, activeRole, List.mem_filter, Bool.and_eq_true, and_assoc] <;>
    exact fun _ => ⟨fun h => ⟨h.2.1, h.2.2, h.1⟩, fun h => ⟨h.2.2, h.1, h.2.1⟩⟩

lemma mem_get_report_images (stack : Bool) (entries : List (FName × FName × FName))
    (today : FName) (htoday : today.length = 8)
    (hent : ∀ e ∈ entries, e.1.length = 8 ∧ '_' ∉ e.1 ∧ '_' ∉ e.2.1 ∧ e.2.2 ∈ roleSegments)
    (f : FName) :
    f ∈ get_report_images stack (entries.map fun e => canonicalName e.1 e.2.1 e.2.2) today ↔
      ∃ e ∈ entries, e.1 = today ∧ e.2.2 = activeRole stack ∧
        f = canonicalName today e.2.1 (activeRole stack) := by
  rw [mem_get_report_images_raw]
  constructor
  · rintro ⟨hmem, hpfx, _, hrole⟩
    rw [List.mem_map] at hmem
    obtain ⟨e, he, rfl⟩ := hmem
    obtain ⟨hlen, _, _, hrs⟩ := hent e he
    have h1 : e.1 = today :=
      (canonical_prefix_iff today e.1 e.2.1 e.2.2 htoday hlen).mp hpfx
    have h2 : e.2.2 = activeRole stack :=
      (canonical_role_suffix_iff _ (activeRole_cases stack) _ _ _ hrs).mp hrole
    exact ⟨e, he, h1, h2, by rw [h1, h2]⟩
  · rintro ⟨e, he, h1, h2, rfl⟩
    obtain ⟨hlen, _, _, hrs⟩ := hent e he
    refine ⟨?_, ?_, ?_, ?_⟩
    · rw [List.mem_map]
      exact ⟨e, he, by rw [h1, h2]⟩
    · exact (canonical_prefix_iff today today e.2.1 (activeRole stack) htoday htoday).mpr rfl
    · exact canonical_est_suffix _ _ _
    · exact (canonical_role_suffix_iff _ (activeRole_cases stack) _ _ _
        (activeRole_mem stack)).mpr rfl

lemma nodup_get_report_images (stack : Bool) (L : List FName) (today : FName)
    (h : L.Nodup) : (get_report_images stack L today).Nodup := by
  cases stack <;> exact (List.Nodup.filter _ (List.Nodup.filter _ h))

/-! ## Claim C2 -/

lemma runLoopBody_replicate_raises (eff : SendState → SendState × List Role)
    (rest : List IterStep) : ∀ (n : Nat) (st : SendState),
    ∃ st2 fs, runLoopBody (List.replicate n (.ok eff) ++ .raises :: rest) st =
      (st2, fs, n + 1, true) := by
  intro n
  induction n with
  | zero => intro st; exact ⟨st, [], rfl⟩
  | succ n ih =>
      intro st
      obtain ⟨st2, fs, hk⟩ := ih (eff st).1
      refine ⟨st2, (eff st).2 ++ fs, ?_⟩
      simp only [List.replicate_succ, List.cons_append, runLoopBody, List.append_eq, hk]

/-- C2 counterexample: with the lock held, a trace whose first iteration
raises and which has one further planned iteration runs exactly one
iteration, performs no backoff sleep and exits on the error — the loop does
not resume, contradicting the claim that an exception is followed by a
60-unit backoff and continued iteration and that only cancellation or lock
failure ends the loop. -/
theorem c2_counterexample :
    (run_scheduled_loop true [.raises, .ok (fun s => (s, []))]
        ⟨none, none, .notSent, 0⟩).iterationsRun = 1 ∧
    (run_scheduled_loop true [.raises, .ok (fun s => (s, []))]
        ⟨none, none, .notSent, 0⟩).backoffSleeps = 0 ∧
    (run_scheduled_loop true [.raises, .ok (fun s => (s, []))]
        ⟨none, none, .notSent, 0⟩).exitedOnError = true :=
  ⟨rfl, rfl, rfl⟩

/-- C2 (amended): the `try` block wraps the whole `while True`, so the first
exception raised in the loop body escapes the loop, is caught once at the
outer boundary and logged, the lock is released and the loop terminates;
there is no backoff sleep and no resumption — iterations planned after the
failing one never run. -/
theorem c2_exception_terminates_loop (n : Nat) (eff : SendState → SendState × List Role)
    (rest : List IterStep) (st : SendState) :
    (run_scheduled_loop true (List.replicate n (.ok eff) ++ .raises :: rest) st).iterationsRun = n + 1 ∧
    (run_scheduled_loop true (List.replicate n (.ok eff) ++ .raises :: rest) st).backoffSleeps = 0 ∧
    (run_scheduled_loop true (List.replicate n (.ok eff) ++ .raises :: rest) st).errorCaught = true ∧
    (run_scheduled_loop true (List.replicate n (.ok eff) ++ .raises :: rest) st).exitedOnError = true ∧
    (run_scheduled_loop true (List.replicate n (.ok eff) ++ .raises :: rest) st).lockReleased = true := by
  obtain ⟨st2, fs, hk⟩ := runLoopBody_replicate_raises eff rest n st
  simp [run_scheduled_loop, hk]

/-! ## Claim C3 -/

/-- C3 counterexample: with send time 20:00 (minute 1200 of the day) and
`now` exactly at day 5's send instant, `_get_next_send_time` returns `now`
itself — not an instant strictly greater than `now` and not tomorrow's send
instant, because the code adds a day only when `now` is strictly past the
instant. -/
theorem c3_counterexample :
    get_next_send_time 1200 (combineDT 5 1200) = combineDT 5 1200 ∧
    ¬ combineDT 5 1200 < get_next_send_time 1200 (combineDT 5 1200) ∧
    get_next_send_time 1200 (combineDT 5 1200) ≠ combineDT 6 1200 := by decide

/-- C3 (amended): for non-empty weekday and weekend capture lists,
`_get_next_capture_time` is strictly greater than `now`; `_get_next_send_time`
is never in the past, and it equals `now` exactly when `now` is at today's
send instant (minute-of-day equal to the send time) — only strictly past that
instant does it move to tomorrow. -/
theorem c3_next_instants (wkday wkend : List Nat) (now sendTod : Nat)
    (hw : wkday ≠ []) (he : wkend ≠ []) :
    now < get_next_capture_time wkday wkend now ∧
    now ≤ get_next_send_time sendTod now ∧
    (get_next_send_time sendTod now = now ↔ now % minutesPerDay = sendTod) := by
  refine ⟨?_, ?_, ?_⟩
  · have hL : get_capture_times_for_day wkday wkend (now / minutesPerDay + 1) ≠ [] := by
      unfold get_capture_times_for_day
      split <;> assumption
    obtain ⟨t0, ts, hLt⟩ := List.exists_cons_of_ne_nil hL
    have htom : ∀ t, now < combineDT (now / minutesPerDay + 1) t := by
      intro t
      have h1 := Nat.div_add_mod now 1440
      have h2 : now % 1440 < 1440 := Nat.mod_lt _ (by decide)
      unfold combineDT minutesPerDay
      omega
    simp only [get_next_capture_time]
    set future := ((get_capture_times_for_day wkday wkend (now / minutesPerDay)).map
        (combineDT (now / minutesPerDay)) ++
      (get_capture_times_for_day wkday wkend (now / minutesPerDay + 1)).map
        (combineDT (now / minutesPerDay + 1))).filter (fun dt => decide (now < dt)) with hfut
    have hmem : combineDT (now / minutesPerDay + 1) t0 ∈ future := by
      rw [hfut]
      rw [List.mem_filter]
      constructor
      · apply List.mem_append_right
        exact List.mem_map_of_mem _ (hLt ▸ List.mem_cons_self t0 ts)
      · exact decide_eq_true (htom t0)
    have hall : ∀ y ∈ future, now < y := by
      intro y hy
      rw [hfut, List.mem_filter] at hy
      exact of_decide_eq_true hy.2
    cases hc : future with
    | nil => exact absurd (hc ▸ hmem) (List.not_mem_nil _)
    | cons x xs =>
        exact lt_foldl_min now xs x (hall x (hc ▸ List.mem_cons_self x xs))
          (fun y hy => hall y (hc ▸ List.mem_cons_of_mem x hy))
  · have h1 := Nat.div_add_mod now 1440
    have h2 : now % 1440 < 1440 := Nat.mod_lt _ (by decide)
    simp only [get_next_send_time, combineDT, minutesPerDay]
    split <;> omega
  · have h1 := Nat.div_add_mod now 1440
    have h2 : now % 1440 < 1440 := Nat.mod_lt _ (by decide)
    simp only [get_next_send_time, combineDT, minutesPerDay]
    split <;> omega

/-- C3 witness: a concrete schedule (weekday capture 07:00, weekend capture
08:00, send 20:00) evaluated at midnight of day 0. -/
theorem c3_witness :
    0 < get_next_capture_time [420] [480] 0 ∧
    0 ≤ get_next_send_time 1200 0 ∧
    (get_next_send_time 1200 0 = 0 ↔ 0 % minutesPerDay = 1200) :=
  c3_next_instants [420] [480] 0 1200 (by decide) (by decide)

/-! ## Claim C4 -/

/-- C4: if all 3 primary fetch attempts fail, `capture_image` returns with no
file written and the state untouched; if some primary attempt succeeds,
`last_capture_time` is set to `now` and the primary file is written,
regardless of the secondary attempts, stacking flag or stacking outcome. -/
theorem c4_capture_no_partial_state (pAtt sAtt : List Bool) (sc se so : Bool)
    (now : Nat) (st : CaptureState) :
    (tryAttempts 3 pAtt = false →
      capture_image pAtt sc sAtt se so now st = (st, [])) ∧
    (tryAttempts 3 pAtt = true →
      (capture_image pAtt sc sAtt se so now st).1.lastCaptureTime = some now ∧
      Role.primary ∈ (capture_image pAtt sc sAtt se so now st).2) := by
  constructor
  · intro h
    simp [capture_image, h]
  · intro h
    simp [capture_image, h]

/-- C4 witness: primary succeeds on the second of three attempts while every
secondary attempt fails with stacking enabled; the state is committed and the
primary file written. -/
theorem c4_witness :
    (tryAttempts 3 [false, true] = false →
      capture_image [false, true] true [false, false, false] true true 500 ⟨none⟩ = (⟨none⟩, [])) ∧
    (tryAttempts 3 [false, true] = true →
      (capture_image [false, true] true [false, false, false] true true 500 ⟨none⟩).1.lastCaptureTime = some 500 ∧
      Role.primary ∈ (capture_image [false, true] true [false, false, false] true true 500 ⟨none⟩).2) :=
  c4_capture_no_partial_state [false, true] [false, false, false] true true true 500 ⟨none⟩

/-! ## Claim C5 -/

/-- C5: evaluation at the failing configuration.  For a 100×100 image with
crop config (top 0, left 150, width 0, height 0), width defaults to the
image remainder `100 - 150 = -50`, which no later step clamps below by zero,
so the computed box is (left 99, top 0, right 49, bottom 100): `right < left`
makes PIL `crop` raise `ValueError`, and the rectangle is not within the
image bounds — the clamping is not total as the claim states. -/
theorem c5_crop_failing_input :
    computeCropBox 100 100 ⟨0, 150, 0, 0⟩ = ⟨99, 0, 49, 100⟩ ∧
    cropRaisesOn (computeCropBox 100 100 ⟨0, 150, 0, 0⟩) = true ∧
    boxWithinBounds 100 100 (computeCropBox 100 100 ⟨0, 150, 0, 0⟩) = false := by decide

/-! ## Claim C6 -/

/-- C6 counterexample: `_load_state` on an unparseable state file lets the
`json.load` exception propagate — the load is fatal and does not return the
empty/default state, contradicting the claim that a corrupt file is treated
as empty state with a warning. -/
theorem c6_counterexample :
    loadIsFatal (load_state .unparseable) = true ∧
    load_state .unparseable ≠ .ok ⟨none, none, none⟩ := by
  constructor
  · rfl
  · intro h
    exact Except.noConfusion h

/-- C6 (amended): loading from a missing state file yields the empty/default
state (all fields `None`) without error, and a parseable file fills the three
fields; but an unparseable state file makes `_load_state` raise — there is no
handler, so state loading can fail fatally on a corrupt file. -/
theorem c6_load_semantics (r1 r2 r3 : Option (List Char)) :
    load_state .missing = .ok ⟨none, none, none⟩ ∧
    loadIsFatal (load_state .unparseable) = true ∧
    load_state (.parsed r1 r2 r3) = .ok ⟨r1, r2, r3⟩ :=
  ⟨rfl, rfl, rfl⟩

/-! ## Claim C9 -/

/-- C9: when the non-blocking lock acquisition fails, the scheduler loop
returns before entering its body: the bookkeeping state is unchanged, no file
is written, no iteration runs and no error is raised. -/
theorem c9_lock_failure_clean_exit (iters : List IterStep) (st : SendState) :
    (run_scheduled_loop false iters st).finalState = st ∧
    (run_scheduled_loop false iters st).filesWritten = [] ∧
    (run_scheduled_loop false iters st).iterationsRun = 0 ∧
    (run_scheduled_loop false iters st).errorCaught = false :=
  ⟨rfl, rfl, rfl, rfl⟩

/-! ## Claim C1 -/

lemma combineDT_div (d tod : Nat) (h : tod < minutesPerDay) :
    combineDT d tod / minutesPerDay = d := by
  unfold combineDT minutesPerDay at *
  omega

lemma combineDT_mod (d tod : Nat) (h : tod < minutesPerDay) :
    combineDT d tod % minutesPerDay = tod := by
  unfold combineDT minutesPerDay at *
  omega

/-- C1 counterexample, three concrete failures of the claim as stated, all
with send time 20:00 (minute 1200).  First: wakeup at minute 1201 of day 0 in
an iteration that began on day 0 — the current time has reached the send
threshold and `last_sent_date` differs from today, yet no send and no
transport call happen: the code requires the wall clock's hour *and minute*
to equal the send time's exactly.  Second: wakeup exactly at day 1's send
instant in an iteration that began on day 0 (the sleep crossed midnight) with
`last_sent_date` = day 0 — the threshold is reached and `last_sent_date`
differs from today (day 1), yet no send happens, because the guard at line
278 compares against the stale pre-sleep date string.  Third: same
midnight-crossing wakeup from a fresh state — the send does execute, but
afterwards `last_sent_date` is day 0's string, not today's. -/
theorem c1_counterexample :
    ((combineDT 0 1200 ≤ 1201 ∧ (none : Option Nat) ≠ some (1201 / minutesPerDay)) ∧
      loopSendCheck 1200 true true true 0 1201 ⟨none, none, .notSent, 0⟩ =
        (⟨none, none, .notSent, 0⟩, 0)) ∧
    ((some 0 : Option Nat) ≠ some (combineDT 1 1200 / minutesPerDay) ∧
      loopSendCheck 1200 true true true 0 (combineDT 1 1200) ⟨some 0, none, .notSent, 0⟩ =
        (⟨some 0, none, .notSent, 0⟩, 0)) ∧
    ((loopSendCheck 1200 true true true 0 (combineDT 1 1200)
        ⟨none, none, .notSent, 0⟩).1.lastSentDate ≠
      some (combineDT 1 1200 / minutesPerDay)) := by decide

/-- C1 (amended): on a wakeup whose hour and minute equal the send time's and
with `last_sent_date` differing from the iteration's pre-sleep date string
(line 236, not refreshed across the sleep), the send step executes (one
transport call) and afterwards `last_sent_date` equals that pre-sleep date
string whatever the transport outcome.  When the iteration began on the wake
date — every sleep that did not cross midnight, so in particular `p = d`
below — that string is today's date, and a second send-due wakeup on the same
date from an iteration that also began on it performs no further transport
call: exactly one call for the day. -/
theorem c1_at_most_one_send_per_day (sendTod p d : Nat) (b1 b2 : Bool) (st : SendState)
    (hTod : sendTod < minutesPerDay) (hnot : st.lastSentDate ≠ some p) :
    (loopSendCheck sendTod true true b1 p (combineDT d sendTod) st).2 = 1 ∧
    (loopSendCheck sendTod true true b1 p (combineDT d sendTod) st).1.lastSentDate = some p ∧
    (loopSendCheck sendTod true true b2 p (combineDT d sendTod)
        (loopSendCheck sendTod true true b1 p (combineDT d sendTod) st).1).2 = 0 := by
  have hmod := combineDT_mod d sendTod hTod
  have hne : (st.lastSentDate == some p) = false := by
    rw [beq_eq_false_iff_ne]
    exact hnot
  cases b1 <;> simp [loopSendCheck, send_report, hmod, hne]

/-- C1 witness: day 3, send minute 1200, iteration began on day 3 (no
midnight crossing), fresh state: the first wakeup's transport succeeds and a
second send-due wakeup the same day makes no call. -/
theorem c1_witness :
    (loopSendCheck 1200 true true true 3 (combineDT 3 1200) ⟨none, none, .notSent, 0⟩).2 = 1 ∧
    (loopSendCheck 1200 true true true 3 (combineDT 3 1200) ⟨none, none, .notSent, 0⟩).1.lastSentDate = some 3 ∧
    (loopSendCheck 1200 true true false 3 (combineDT 3 1200)
        (loopSendCheck 1200 true true true 3 (combineDT 3 1200) ⟨none, none, .notSent, 0⟩).1).2 = 0 :=
  c1_at_most_one_send_per_day 1200 3 3 true false ⟨none, none, .notSent, 0⟩ (by decide) (by decide)

/-! ## Claim C10 -/

/-- C10 counterexample: send time 20:00 (minute 1200), a failed scheduled
send at day 1's send instant (minute 2640) in an iteration that began on day
0 — the sleep crossed midnight.  The loop marks `last_sent_date` with day 0's
string (the stale line-236 `today_str`), not today's (day 1); and a later
send-due wakeup on day 1, from an iteration that began on day 1, does call
the transport again — refuting the claim that the loop sets `last_sent_date`
to today's date string and that the failed send is not retried the same
day. -/
theorem c10_counterexample :
    (loopSendCheck 1200 true true false 0 (combineDT 1 1200)
        ⟨none, none, .notSent, 0⟩).1.lastSentDate = some 0 ∧
    (some 0 : Option Nat) ≠ some (combineDT 1 1200 / minutesPerDay) ∧
    (loopSendCheck 1200 true true true 1 (combineDT 1 1200)
        (loopSendCheck 1200 true true false 0 (combineDT 1 1200)
          ⟨none, none, .notSent, 0⟩).1).2 = 1 := by decide

/-- C10 (amended): when the scheduled send is due and the transport call
fails, `send_report` records the error in the report status and leaves
`last_sent_date` and the saved state untouched; the loop afterwards sets
`last_sent_date` to the iteration's pre-sleep date string and saves the state
anyway.  When the iteration began on the wake date (any sleep that did not
cross midnight), that string is today's date: the failed send counts as that
day's send, and a later send-due wakeup from an iteration begun on the same
day performs no further transport call. -/
theorem c10_failed_send_still_marked (sendTod p now now2 : Nat) (b2 : Bool) (st : SendState)
    (hTod : now % minutesPerDay = sendTod)
    (hnot : st.lastSentDate ≠ some p) :
    (send_report true true false now st).1.report = .errorStatus ∧
    (send_report true true false now st).1.lastSentDate = st.lastSentDate ∧
    (send_report true true false now st).1.savedCount = st.savedCount ∧
    (loopSendCheck sendTod true true false p now st).1.lastSentDate = some p ∧
    (loopSendCheck sendTod true true false p now st).1.savedCount = st.savedCount + 1 ∧
    (loopSendCheck sendTod true true false p now st).2 = 1 ∧
    (loopSendCheck sendTod true true b2 p now2
        (loopSendCheck sendTod true true false p now st).1).2 = 0 := by
  have hne : (st.lastSentDate == some p) = false := by
    rw [beq_eq_false_iff_ne]
    exact hnot
  simp [loopSendCheck, send_report, hTod, hne]

/-- C10 witness: failed transport at minute 4080 (= 20:00 of day 2, send time
1200) in an iteration that began on day 2; a wakeup one minute later, also
from a day-2 iteration, makes no call. -/
theorem c10_witness :
    (send_report true true false 4080 ⟨none, none, .notSent, 0⟩).1.report = .errorStatus ∧
    (send_report true true false 4080 ⟨none, none, .notSent, 0⟩).1.lastSentDate = none ∧
    (send_report true true false 4080 ⟨none, none, .notSent, 0⟩).1.savedCount = 0 ∧
    (loopSendCheck 1200 true true false 2 4080 ⟨none, none, .notSent, 0⟩).1.lastSentDate = some 2 ∧
    (loopSendCheck 1200 true true false 2 4080 ⟨none, none, .notSent, 0⟩).1.savedCount = 0 + 1 ∧
    (loopSendCheck 1200 true true false 2 4080 ⟨none, none, .notSent, 0⟩).2 = 1 ∧
    (loopSendCheck 1200 true true true 2 4081
        (loopSendCheck 1200 true true false 2 4080 ⟨none, none, .notSent, 0⟩).1).2 = 0 :=
  c10_failed_send_still_marked 1200 2 4080 4081 true ⟨none, none, .notSent, 0⟩
    (by decide) (by decide)

/-! ## Claim C8 -/

/-- C8 counterexample: with today being 2025-01-02 and `last_sent_date`
2025-01-01, a manual resend for the past date 2024-09-01 (not today) changes
`last_sent_date` to that past date — the claim that `last_sent_date` is left
unchanged for any requested date other than today is false. -/
theorem c8_counterexample :
    ("20240901".toList ≠ "20250102".toList) ∧
    (do_command_send_email true true true true "20240901".toList
        ⟨some "20250101".toList, none, .notSent, 0⟩).1.lastSentDate = some "20240901".toList ∧
    (do_command_send_email true true true true "20240901".toList
        ⟨some "20250101".toList, none, .notSent, 0⟩).1.lastSentDate ≠ some "20250101".toList := by
  decide

/-- C8 (amended): the manual send command re-runs report assembly and
transport for any valid requested date independently of the stored
`last_sent_date` (the result does not read it), and on success it always sets
`last_sent_date` to the requested date itself and saves the state — whether
or not that date is today; on a transport failure the state is untouched. -/
theorem c8_manual_send_updates_state (day : FName) (st : CmdState) (ok : Bool) :
    (do_command_send_email true true true true day st).1.lastSentDate = some day ∧
    (do_command_send_email true true true true day st).1.savedCount = st.savedCount + 1 ∧
    (do_command_send_email true true true true day st).2 = (.sentOk, 1) ∧
    (do_command_send_email true true true false day st).1 = st ∧
    (do_command_send_email true true true false day st).2 = (.errorSending, 1) ∧
    (do_command_send_email true true true ok day { st with lastSentDate := none }).2 =
      (do_command_send_email true true true ok day st).2 := by
  refine ⟨rfl, rfl, rfl, rfl, rfl, ?_⟩
  cases ok <;> rfl

/-! ## Claim C7 -/

/-- C7: for a day directory of canonically named images, the report pipeline
(`_get_report_images` filtering followed by the sort of `send_report` line
499) returns only files of the requested date whose role matches the active
mode — stacked when stacking is enabled, primary otherwise — and lists them
in strictly increasing embedded-timestamp order. -/
theorem c7_report_selection_order
    (stack : Bool) (entries : List (FName × FName × FName)) (today : FName)
    (htoday : today.length = 8)
    (hent : ∀ e ∈ entries, e.1.length = 8 ∧ '_' ∉ e.1 ∧ '_' ∉ e.2.1 ∧ e.2.2 ∈ roleSegments)
    (hnodup : (entries.map fun e => canonicalName e.1 e.2.1 e.2.2).Nodup) :
    (∀ f ∈ send_report_selection stack (entries.map fun e => canonicalName e.1 e.2.1 e.2.2) today,
        ∃ e ∈ entries, e.1 = today ∧ e.2.2 = activeRole stack ∧
          f = canonicalName today e.2.1 (activeRole stack)) ∧
    (send_report_selection stack (entries.map fun e => canonicalName e.1 e.2.1 e.2.2) today).Pairwise
      (fun f g => lexLe (tsSegment f) (tsSegment g) = true ∧ tsSegment f ≠ tsSegment g) := by
  have hperm : (send_report_selection stack
      (entries.map fun e => canonicalName e.1 e.2.1 e.2.2) today).Perm
      (get_report_images stack (entries.map fun e => canonicalName e.1 e.2.1 e.2.2) today) :=
    List.perm_insertionSort keyLe _
  have hmem : ∀ f, f ∈ send_report_selection stack
      (entries.map fun e => canonicalName e.1 e.2.1 e.2.2) today ↔
      ∃ e ∈ entries, e.1 = today ∧ e.2.2 = activeRole stack ∧
        f = canonicalName today e.2.1 (activeRole stack) := by
    intro f
    rw [hperm.mem_iff]
    exact mem_get_report_images stack entries today htoday hent f
  constructor
  · intro f hf
    exact (hmem f).mp hf
  · have hsorted : (send_report_selection stack
        (entries.map fun e => canonicalName e.1 e.2.1 e.2.2) today).Pairwise keyLe :=
      List.sorted_insertionSort keyLe _
    have hnd : (send_report_selection stack
        (entries.map fun e => canonicalName e.1 e.2.1 e.2.2) today).Nodup :=
      hperm.symm.nodup (nodup_get_report_images stack _ today hnodup)
    refine (hsorted.and hnd).imp_of_mem ?_
    intro f g hf hg hfg
    obtain ⟨hle, hne⟩ := hfg
    obtain ⟨e1, he1, hd1, _, rfl⟩ := (hmem f).mp hf
    obtain ⟨e2, he2, _, _, rfl⟩ := (hmem g).mp hg
    have hU : '_' ∉ today := by
      have h := (hent e1 he1).2.1
      rwa [hd1] at h
    have hts1 : '_' ∉ e1.2.1 := (hent e1 he1).2.2.1
    have hts2 : '_' ∉ e2.2.1 := (hent e2 he2).2.2.1
    have har := activeRole_no_underscore stack
    unfold keyLe at hle
    rw [sortKey_canonical today e1.2.1 _ hU hts1 har,
        sortKey_canonical today e2.2.1 _ hU hts2 har,
        lexLe_append_left] at hle
    rw [tsSegment_canonical today e1.2.1 _ hU hts1 har,
        tsSegment_canonical today e2.2.1 _ hU hts2 har]
    refine ⟨hle, fun h => hne ?_⟩
    rw [h]

/-- C7 witness: a concrete day directory with two primary captures for
2025-03-03 at 07:00:00 and 12:00:00, stacking disabled. -/
theorem c7_witness :
    (∀ f ∈ send_report_selection false
        (([("20250303".toList, "070000".toList, "primary".toList),
           ("20250303".toList, "120000".toList, "primary".toList)] :
            List (FName × FName × FName)).map fun e => canonicalName e.1 e.2.1 e.2.2)
        "20250303".toList,
        ∃ e ∈ ([("20250303".toList, "070000".toList, "primary".toList),
                ("20250303".toList, "120000".toList, "primary".toList)] :
            List (FName × FName × FName)),
          e.1 = "20250303".toList ∧ e.2.2 = activeRole false ∧
          f = canonicalName "20250303".toList e.2.1 (activeRole false)) ∧
    (send_report_selection false
        (([("20250303".toList, "070000".toList, "primary".toList),
           ("20250303".toList, "120000".toList, "primary".toList)] :
            List (FName × FName × FName)).map fun e => canonicalName e.1 e.2.1 e.2.2)
        "20250303".toList).Pairwise
      (fun f g => lexLe (tsSegment f) (tsSegment g) = true ∧ tsSegment f ≠ tsSegment g) :=
  c7_report_selection_order false
    [("20250303".toList, "070000".toList, "primary".toList),
     ("20250303".toList, "120000".toList, "primary".toList)]
    "20250303".toList (by decide) (by decide) (by decide)
